import Mathlib

/-!
Verification of the midi-mcp-server composition-to-MIDI translation layer
(`src/index.ts`).

The TypeScript source is shallowly embedded below.  JavaScript numbers are
modelled as exact rationals (`ℚ`); `Math.round` is modelled as
`fun q => (q + 1/2).floor`, which agrees with JavaScript's round-half-up
semantics on all finite inputs; JavaScript's truthiness tests on strings and
numbers (`if (x)`, `x || d`) are modelled explicitly (`0` and `""` are falsy);
optional / absent JSON fields are modelled with `Option`.
-/

/- Rational arithmetic in Batteries is sealed; re-opening it lets concrete
   witness computations go through kernel reduction (`decide`). -/
attribute [local semireducible] Rat.add Rat.mul Rat.inv Rat.sub

/-- JavaScript `Math.round`: round half toward positive infinity
(`Math.round(x) = Math.floor(x + 0.5)` for all finite `x`). -/
def jsRound (q : ℚ) : ℤ := (q + 1/2).floor

/-- JavaScript truncation toward zero (`Math.trunc`), used to model the sign
behaviour of the JavaScript `%` operator. -/
def ratTrunc (q : ℚ) : ℤ := if 0 ≤ q then q.floor else q.ceil

/-- JavaScript's `%` operator on numbers: `a % b = a - b * trunc(a / b)`
(result has the sign of the dividend). -/
def jsRem (a b : ℚ) : ℚ := a - b * (ratTrunc (a / b) : ℚ)

/-- JavaScript `a || d` for an optional numeric `a`: absent (`undefined`) and
`0` are falsy and give the default. -/
def jsOrNum (a : Option ℚ) (d : ℚ) : ℚ :=
  match a with
  | none => d
  | some q => if q = 0 then d else q

/-- A JSON value that the source treats as `number | string`
(note pitch: MIDI note number or symbolic pitch name, `index.ts:16`). -/
inductive PitchValue where
  | num (q : ℚ)
  | name (s : String)
deriving DecidableEq, Repr

/-- A duration value as it arrives in the composition JSON: the declared type
is `string` (`index.ts:20`) but the handler also accepts numbers
(`index.ts:209`). -/
inductive DurationValue where
  | str (s : String)
  | num (q : ℚ)
deriving DecidableEq, Repr

/-- Structure `MidiNote` (`index.ts:15-23`); all optional fields are `Option`. -/
structure MidiNote where
  pitch : PitchValue
  beat : Option ℚ
  startTime : Option ℚ
  time : Option ℚ
  duration : DurationValue
  velocity : Option ℚ
  channel : Option ℚ
deriving DecidableEq, Repr

/-- Structure `MidiTrack` (`index.ts:25-29`). -/
structure MidiTrack where
  name : Option String
  instrument : Option ℚ
  notes : List MidiNote
deriving DecidableEq, Repr

/-- Structure `TimeSignature` (`index.ts:31-34`). -/
structure TimeSignature where
  numerator : ℚ
  denominator : ℚ
deriving DecidableEq, Repr

/-- Structure `MidiComposition` (`index.ts:36-41`); `bpm` is declared required in the
interface but the JSON cast is unchecked, so it is modelled as optional
(the source itself guards with `composition.bpm || composition.tempo || 120`
at `index.ts:380`). -/
structure MidiComposition where
  bpm : Option ℚ
  tempo : Option ℚ
  timeSignature : Option TimeSignature
  tracks : List MidiTrack
deriving DecidableEq, Repr

/-- The numeric-duration switch of `index.ts:211-219`. -/
def numericDurationToString (q : ℚ) : String :=
  if q = 1/16 then "64"
  else if q = 1/8 then "32"
  else if q = 1/4 then "16"
  else if q = 1/2 then "8"
  else if q = 1 then "4"
  else if q = 2 then "2"
  else "4"

/-- Duration normalization applied to one note (`index.ts:208-221`):
numbers go through the switch, strings are left untouched. -/
def normalizeDuration (d : DurationValue) : DurationValue :=
  match d with
  | DurationValue.str s => DurationValue.str s
  | DurationValue.num q => DurationValue.str (numericDurationToString q)

/-- The valid symbolic duration vocabulary (schema enum, `index.ts:117`). -/
def validDurationTokens : List String := ["1", "2", "4", "8", "16", "32", "64"]

/-- First normalization pass over one note (`index.ts:207-222`):
rewrite a numeric `duration` to its string form. -/
def normalizeNoteDuration (n : MidiNote) : MidiNote :=
  { n with duration := normalizeDuration n.duration }

/-- Second normalization pass over one note (`index.ts:225-232`): copy the
legacy `time` field into `startTime` — but only when `startTime` is absent —
and delete `time`. -/
def normalizeNoteTiming (n : MidiNote) : MidiNote :=
  if n.time ≠ none ∧ n.startTime = none then
    { n with startTime := n.time, time := none }
  else n

/-- Both handler-level normalization passes on one note, in source order
(durations at `index.ts:207-222`, then timing at `index.ts:224-232`). -/
def normalizeNote (n : MidiNote) : MidiNote :=
  normalizeNoteTiming (normalizeNoteDuration n)

/-- The two handler normalization passes over a whole composition
(`index.ts:207-232`). -/
def normalizeComposition (c : MidiComposition) : MidiComposition :=
  { c with tracks := c.tracks.map (fun t => { t with notes := t.notes.map normalizeNote }) }

/-- Function `convertBeatToWait` (`index.ts:286-298`), returning the tick count that
the source embeds in the wait string `T${ticks}`. -/
def convertBeatToWait (beat bpm : ℚ) : ℤ :=
  jsRound ((beat - 1) * 128 / bpm)

/-- The wait computation of `createMidiFile` (`index.ts:404-410`) on an
already-normalized note.  `bpm = none` models an absent `composition.bpm`, in
which case the beat branch produces no numeric tick value (`NaN` in
JavaScript). -/
def noteWait (n : MidiNote) (bpm : Option ℚ) : Option ℤ :=
  match n.beat with
  | some b =>
    match bpm with
    | some v => some (convertBeatToWait b v)
    | none => none
  | none => some (jsRound (jsOrNum n.startTime 0 * (1/2)))

/-- End-to-end wait resolution for one raw input note: the two handler
normalization passes followed by the `createMidiFile` wait computation. -/
def resolveWait (n : MidiNote) (bpm : Option ℚ) : Option ℤ :=
  noteWait (normalizeNote n) bpm

/-- Function `noteToMidiNumber` (`index.ts:279-284`): the identity on both numeric and
symbolic pitches. -/
def noteToMidiNumber (p : PitchValue) : PitchValue := p

/-- One fully resolved, writer-ready note event (the argument record of
`new MidiWriter.NoteEvent` at `index.ts:414-420`). -/
structure NoteEvent where
  pitch : PitchValue
  duration : DurationValue
  velocity : ℚ
  channel : ℚ
  wait : Option ℤ
deriving DecidableEq, Repr

/-- One event added to a writer track by `createMidiFile`
(`index.ts:369-424`). -/
inductive TrackEvent where
  | trackName (s : String)
  | setTempo (t : ℚ)
  | timeSignature (numerator denominator : ℚ)
  | programChange (instrument channel : ℚ)
  | note (e : NoteEvent)
deriving DecidableEq, Repr

/-- The tempo written by `track.setTempo` (`index.ts:380`):
`composition.bpm || composition.tempo || 120` with JavaScript `||`. -/
def effectiveTempo (c : MidiComposition) : ℚ :=
  jsOrNum c.bpm (jsOrNum c.tempo 120)

/-- Per-note resolution in `createMidiFile` (`index.ts:398-420`): identity on
pitch, velocity defaulted to 100 when absent, channel defaulted to
`trackIndex % 16` when absent and wrapped with `% 16` when supplied, and the
wait computation. -/
def resolveNote (bpm : Option ℚ) (trackIndex : ℕ) (n : MidiNote) : NoteEvent :=
  { pitch := noteToMidiNumber n.pitch
  , duration := n.duration
  , velocity := n.velocity.getD 100
  , channel :=
      match n.channel with
      | some ch => jsRem ch 16
      | none => ((trackIndex % 16 : ℕ) : ℚ)
  , wait := noteWait n bpm }

/-- The leading events of one writer track (`index.ts:374-395`): optional
track name (skipped for the falsy empty string), tempo, time signature
(default 4/4), optional program change (emitted whenever `instrument` is
present, checked with `!== undefined`). -/
def trackMetaEvents (c : MidiComposition) (trackIndex : ℕ) (t : MidiTrack) : List TrackEvent :=
  (match t.name with
   | some s => if s = "" then [] else [TrackEvent.trackName s]
   | none => []) ++
  [TrackEvent.setTempo (effectiveTempo c)] ++
  [TrackEvent.timeSignature (c.timeSignature.getD ⟨4, 4⟩).numerator
      (c.timeSignature.getD ⟨4, 4⟩).denominator] ++
  (match t.instrument with
   | some ins => [TrackEvent.programChange ins ((trackIndex % 16 : ℕ) : ℚ)]
   | none => [])

/-- Assembly of one writer track (`index.ts:369-424`): the leading metadata
events followed by one note event per note in declared order. -/
def assembleTrack (c : MidiComposition) (trackIndex : ℕ) (t : MidiTrack) : List TrackEvent :=
  trackMetaEvents c trackIndex t ++
    t.notes.map (fun n => TrackEvent.note (resolveNote c.bpm trackIndex n))

/-- The indexed `composition.tracks.forEach` loop of `createMidiFile`
(`index.ts:369`). -/
def assembleTracks (c : MidiComposition) : ℕ → List MidiTrack → List (List TrackEvent)
  | _, [] => []
  | i, t :: ts => assembleTrack c i t :: assembleTracks c (i + 1) ts

/-- The event lists handed to `new MidiWriter.Writer(tracks)`
(`index.ts:428`) for an already-normalized composition. -/
def createMidiEvents (c : MidiComposition) : List (List TrackEvent) :=
  assembleTracks c 0 c.tracks

/-- Full build pipeline for a parsed composition: the handler's two
normalization passes (`index.ts:207-232`) followed by `createMidiFile`'s
event assembly (`index.ts:369-424`). -/
def buildMidi (c : MidiComposition) : List (List TrackEvent) :=
  createMidiEvents (normalizeComposition c)

/-- The note events contained in an assembled track, in order. -/
def noteEvents (es : List TrackEvent) : List NoteEvent :=
  es.filterMap (fun e =>
    match e with
    | TrackEvent.note ne => some ne
    | _ => none)

/-- Function `chunkArray` (`index.ts:332-338`).  The source only ever calls it with
`size = 50` (`index.ts:302,312`); for `size = 0` the JavaScript loop would not
terminate, so that out-of-use case is mapped to `[]` here. -/
def chunkArray {α : Type} : List α → ℕ → List (List α)
  | [], _ => []
  | _ :: _, 0 => []
  | a :: l, n + 1 => ((a :: l).take (n + 1)) :: chunkArray ((a :: l).drop (n + 1)) (n + 1)
termination_by l _ => l.length
decreasing_by simp [List.length_drop]; omega

/-- The batch-size threshold of `processMidiComposition` (`index.ts:302`). -/
def batchSize : ℕ := 50

/-- The `composition` argument of `create_midi`: `object | string`
(`index.ts:164`). -/
inductive CompInput where
  | objVal (c : MidiComposition)
  | strVal (s : String)
deriving DecidableEq, Repr

/-- The arguments of the `create_midi` tool (`index.ts:162-167`). -/
structure CreateMidiArgs where
  title : String
  composition : Option CompInput
  composition_file : Option String
  output_path : String
deriving DecidableEq, Repr

/-- The `InvalidParams` errors the handler can raise before any file is
written: missing composition (`index.ts:181-186`), file read / parse failure
(`index.ts:194-199`), and the surrounding invalid-format catch
(`index.ts:234-239`). -/
inductive HandlerError where
  | missingComposition
  | fileLoadFailed
  | invalidFormat
deriving DecidableEq, Repr

/-- JavaScript truthiness of the optional `composition` argument: absent and
the empty string are falsy, objects and non-empty strings are truthy. -/
def truthyComp (a : Option CompInput) : Bool :=
  match a with
  | none => false
  | some (CompInput.objVal _) => true
  | some (CompInput.strVal s) => !(s == "")

/-- JavaScript truthiness of an optional string argument. -/
def truthyStr (a : Option String) : Bool :=
  match a with
  | none => false
  | some s => !(s == "")

/-- The `create_midi` request handler (`index.ts:178-245`) up to the event
lists handed to the MIDI writer.  `readFile` abstracts `fs.readFileSync`
(`none` = the read throws) and `parseJson` abstracts `JSON.parse`
(`none` = the parse throws).  An `Except.error` result is raised before
`createMidiFile` runs, so no output file is written in that case; an
`Except.ok` result carries the assembled per-track events. -/
def handleCreateMidi (readFile : String → Option String)
    (parseJson : String → Option MidiComposition)
    (args : CreateMidiArgs) : Except HandlerError (List (List TrackEvent)) :=
  if truthyComp args.composition = false ∧ truthyStr args.composition_file = false then
    Except.error HandlerError.missingComposition
  else
    let comp : Except HandlerError MidiComposition :=
      if truthyStr args.composition_file then
        match args.composition_file with
        | some fp =>
          match readFile fp with
          | none => Except.error HandlerError.fileLoadFailed
          | some content =>
            match parseJson content with
            | none => Except.error HandlerError.fileLoadFailed
            | some c => Except.ok c
        | none => Except.error HandlerError.fileLoadFailed
      else
        match args.composition with
        | some (CompInput.strVal s) =>
          match parseJson s with
          | none => Except.error HandlerError.invalidFormat
          | some c => Except.ok c
        | some (CompInput.objVal c) => Except.ok c
        | none => Except.error HandlerError.invalidFormat
    match comp with
    | Except.error e => Except.error e
    | Except.ok c => Except.ok (buildMidi c)

/-! ### Helper lemmas -/

theorem ratFloor_eq_intFloor (q : ℚ) : q.floor = ⌊q⌋ := by
  rw [Rat.floor_def', Rat.floor_def]

theorem jsRound_eq_floor (q : ℚ) : jsRound q = ⌊q + 1/2⌋ := by
  rw [jsRound, ratFloor_eq_intFloor]

theorem jsRound_nonneg (q : ℚ) (h : 0 ≤ q) : 0 ≤ jsRound q := by
  rw [jsRound_eq_floor]
  exact Int.le_floor.mpr (by push_cast; linarith)

theorem jsRound_zero : jsRound 0 = 0 := by
  rw [jsRound_eq_floor]
  norm_num

theorem normalizeNoteDuration_beat (n : MidiNote) :
    (normalizeNoteDuration n).beat = n.beat := rfl

theorem normalizeNoteTiming_beat (n : MidiNote) :
    (normalizeNoteTiming n).beat = n.beat := by
  rw [normalizeNoteTiming]
  split <;> rfl

theorem normalizeNote_beat (n : MidiNote) : (normalizeNote n).beat = n.beat := by
  rw [normalizeNote, normalizeNoteTiming]
  split <;> rfl

/-- After normalization the effective start offset is `startTime` when
present, otherwise the legacy `time`. -/
theorem normalizeNote_startTime (n : MidiNote) :
    (normalizeNote n).startTime =
      (match n.startTime with
       | some s => some s
       | none => n.time) := by
  obtain ⟨p, nb, nst, nt, nd, nv, nc⟩ := n
  rcases nst with _ | s <;> rcases nt with _ | t <;>
    simp [normalizeNote, normalizeNoteDuration, normalizeNoteTiming]

theorem noteWait_of_beat (m : MidiNote) (b : ℚ) (bpm : Option ℚ)
    (hb : m.beat = some b) :
    noteWait m bpm = bpm.map (fun v => convertBeatToWait b v) := by
  simp only [noteWait, hb]
  cases bpm <;> rfl

theorem noteWait_of_no_beat (m : MidiNote) (bpm : Option ℚ)
    (hb : m.beat = none) :
    noteWait m bpm = some (jsRound (jsOrNum m.startTime 0 * (1/2))) := by
  simp only [noteWait, hb]

theorem resolveWait_of_beat (n : MidiNote) (b : ℚ) (bpm : Option ℚ)
    (hb : n.beat = some b) :
    resolveWait n bpm = (bpm.map (fun v => convertBeatToWait b v)) := by
  rw [resolveWait]
  exact noteWait_of_beat _ b bpm (by rw [normalizeNote_beat, hb])

/-- For a note without a `beat`, the wait is computed from the effective start
offset: `startTime` when present, otherwise the legacy `time`, otherwise 0. -/
theorem resolveWait_of_no_beat (n : MidiNote) (bpm : Option ℚ)
    (hb : n.beat = none) :
    resolveWait n bpm =
      some (jsRound (jsOrNum (match n.startTime with
        | some s => some s
        | none => n.time) 0 * (1/2))) := by
  rw [resolveWait,
    noteWait_of_no_beat _ bpm (by rw [normalizeNote_beat, hb]),
    normalizeNote_startTime]

/-! ### C2: duration normalization -/

/-- C2: duration normalization equals the reference mapping — a string token
already in the valid vocabulary passes through unchanged; the numeric values
0.0625, 0.125, 0.25, 0.5, 1, 2 map to "64", "32", "16", "8", "4", "2"
respectively; every other numeric value maps to "4". -/
theorem duration_normalization_matches_reference (d : DurationValue) :
    (∀ s, d = DurationValue.str s → s ∈ validDurationTokens →
      normalizeDuration d = DurationValue.str s) ∧
    (d = DurationValue.num (1/16) → normalizeDuration d = DurationValue.str "64") ∧
    (d = DurationValue.num (1/8) → normalizeDuration d = DurationValue.str "32") ∧
    (d = DurationValue.num (1/4) → normalizeDuration d = DurationValue.str "16") ∧
    (d = DurationValue.num (1/2) → normalizeDuration d = DurationValue.str "8") ∧
    (d = DurationValue.num 1 → normalizeDuration d = DurationValue.str "4") ∧
    (d = DurationValue.num 2 → normalizeDuration d = DurationValue.str "2") ∧
    (∀ q, d = DurationValue.num q →
      q ∉ ([1/16, 1/8, 1/4, 1/2, 1, 2] : List ℚ) →
      normalizeDuration d = DurationValue.str "4") := by
  refine ⟨?_, ?_, ?_, ?_, ?_, ?_, ?_, ?_⟩
  · rintro s rfl _
    rfl
  all_goals try (rintro rfl; norm_num [normalizeDuration, numericDurationToString])
  rintro q rfl hq
  simp only [List.mem_cons, List.not_mem_nil, or_false, not_or] at hq
  obtain ⟨h1, h2, h3, h4, h5, h6⟩ := hq
  show DurationValue.str (numericDurationToString q) = DurationValue.str "4"
  rw [numericDurationToString, if_neg h1, if_neg h2, if_neg h3, if_neg h4, if_neg h5, if_neg h6]

/-- Witness for C2 at concrete inputs: the token "8" passes through and the
numeric 0.125 maps to "32". -/
theorem duration_normalization_matches_reference_witness :
    normalizeDuration (DurationValue.str "8") = DurationValue.str "8" ∧
    normalizeDuration (DurationValue.num (1/8)) = DurationValue.str "32" :=
  ⟨(duration_normalization_matches_reference (DurationValue.str "8")).1 "8" rfl (by decide),
   (duration_normalization_matches_reference (DurationValue.num (1/8))).2.2.1 rfl⟩

/-! ### C3: beat-position wait formula -/

/-- C3: for a note carrying a beat position, the resolved wait ticks are
`round(((beat − 1) × 128) / bpm)`; beat 1.0 gives 0 at any (positive) tempo,
and beat 2.0 at tempo 120 gives 1. -/
theorem beat_wait_formula (n : MidiNote) (b bpm : ℚ)
    (hb : n.beat = some b) (hbpm : 0 < bpm) :
    resolveWait n (some bpm) = some (jsRound ((b - 1) * 128 / bpm)) ∧
    (b = 1 → resolveWait n (some bpm) = some 0) ∧
    (b = 2 → bpm = 120 → resolveWait n (some bpm) = some 1) := by
  have hmain := resolveWait_of_beat n b (some bpm) hb
  refine ⟨hmain, ?_, ?_⟩
  · rintro rfl
    rw [hmain]
    simp [convertBeatToWait, jsRound_zero]
  · rintro rfl rfl
    rw [hmain]
    norm_num [convertBeatToWait, jsRound_eq_floor]

def noteBeat2 : MidiNote :=
  { pitch := PitchValue.num 60, beat := some 2, startTime := none, time := none
  , duration := DurationValue.str "4", velocity := none, channel := none }

/-- Witness for C3: beat 2.0 at tempo 120 resolves to 1 tick. -/
theorem beat_wait_formula_witness :
    resolveWait noteBeat2 (some 120) = some 1 :=
  (beat_wait_formula noteBeat2 2 120 rfl (by decide)).2.2 rfl rfl

/-! ### C1: timing precedence -/

theorem jsOrNum_some_zero (q : ℚ) : jsOrNum (some q) 0 = q := by
  rw [jsOrNum]
  split <;> simp_all

/-- A note carrying both a legacy `time` (10) and a `startTime` (4), and no
beat. -/
def noteTimeAndStart : MidiNote :=
  { pitch := PitchValue.num 60, beat := none, startTime := some 4, time := some 10
  , duration := DurationValue.str "4", velocity := none, channel := none }

/-- Counterexample to C1 as stated: for a note with both `time = 10` and
`startTime = 4`, the claimed precedence (legacy time over raw start offset)
predicts `round(10 × 0.5) = 5` wait ticks, but the code resolves
`round(4 × 0.5) = 2`: `index.ts:227` copies `time` into `startTime` only when
`startTime` is undefined, so `startTime` wins. -/
theorem timing_precedence_counterexample :
    resolveWait noteTimeAndStart (some 120) = some 2 ∧
    resolveWait noteTimeAndStart (some 120) ≠ some (jsRound (10 * (1/2))) := by
  constructor <;> decide

/-- C1 (amended): the timing precedence is beat position > raw startTime
offset > legacy time alias.  If a beat is present it alone determines the wait
ticks; otherwise a present `startTime` is used (a legacy `time` being
ignored); the legacy `time` is used only when `startTime` is absent. -/
theorem timing_precedence (n : MidiNote) (bpm : ℚ) :
    (∀ b, n.beat = some b →
      resolveWait n (some bpm) = some (convertBeatToWait b bpm)) ∧
    (n.beat = none → ∀ s, n.startTime = some s →
      resolveWait n (some bpm) = some (jsRound (s * (1/2)))) ∧
    (n.beat = none → n.startTime = none → ∀ t, n.time = some t →
      resolveWait n (some bpm) = some (jsRound (t * (1/2)))) := by
  refine ⟨?_, ?_, ?_⟩
  · intro b hb
    rw [resolveWait_of_beat n b _ hb]
    rfl
  · intro hb s hs
    rw [resolveWait_of_no_beat n _ hb]
    simp only [hs, jsOrNum_some_zero]
  · intro hb hs t ht
    rw [resolveWait_of_no_beat n _ hb]
    simp only [hs, ht, jsOrNum_some_zero]

/-- A note carrying only a `startTime` of 4. -/
def noteStart4 : MidiNote :=
  { pitch := PitchValue.num 60, beat := none, startTime := some 4, time := none
  , duration := DurationValue.str "4", velocity := none, channel := none }

/-- A note carrying only a legacy `time` of 10. -/
def noteTime10 : MidiNote :=
  { pitch := PitchValue.num 60, beat := none, startTime := none, time := some 10
  , duration := DurationValue.str "4", velocity := none, channel := none }

/-- Witness for the amended C1 at three concrete notes, one per precedence
level. -/
theorem timing_precedence_witness :
    resolveWait noteBeat2 (some 120) = some (convertBeatToWait 2 120) ∧
    resolveWait noteStart4 (some 120) = some (jsRound (4 * (1/2))) ∧
    resolveWait noteTime10 (some 120) = some (jsRound (10 * (1/2))) :=
  ⟨(timing_precedence noteBeat2 120).1 2 rfl,
   (timing_precedence noteStart4 120).2.1 rfl 4 rfl,
   (timing_precedence noteTime10 120).2.2 rfl rfl 10 rfl⟩

/-! ### C4: raw start offset resolution -/

/-- C4: for every note without a beat position, the resolved wait ticks equal
`round(rawOffset × 0.5)` where `rawOffset` is the `startTime` value, the
legacy `time` value when `startTime` is absent, and 0 when both are absent;
a note carrying only a legacy `time` of value `t` produces the same wait as
one carrying `startTime = t`, and `time = 10` gives 5 ticks. -/
theorem start_offset_wait (n : MidiNote) (bpm : Option ℚ) (hb : n.beat = none) :
    (n.startTime = none → n.time = none → resolveWait n bpm = some 0) ∧
    (∀ s, n.startTime = some s → resolveWait n bpm = some (jsRound (s * (1/2)))) ∧
    (∀ t, n.startTime = none → n.time = some t →
      resolveWait n bpm = some (jsRound (t * (1/2)))) ∧
    (∀ t, resolveWait { n with startTime := none, time := some t } bpm =
          resolveWait { n with startTime := some t, time := none } bpm) ∧
    (n.startTime = none → n.time = some 10 → resolveWait n bpm = some 5) := by
  refine ⟨?_, ?_, ?_, ?_, ?_⟩
  · intro hs ht
    rw [resolveWait_of_no_beat n bpm hb]
    simp only [hs, ht, jsOrNum, zero_mul, jsRound_zero]
  · intro s hs
    rw [resolveWait_of_no_beat n bpm hb]
    simp only [hs, jsOrNum_some_zero]
  · intro t hs ht
    rw [resolveWait_of_no_beat n bpm hb]
    simp only [hs, ht, jsOrNum_some_zero]
  · intro t
    rw [resolveWait_of_no_beat _ bpm (by simpa using hb),
      resolveWait_of_no_beat _ bpm (by simpa using hb)]
  · intro hs ht
    rw [resolveWait_of_no_beat n bpm hb]
    simp only [hs, ht, jsOrNum_some_zero]
    norm_num [jsRound_eq_floor]

def noteNoTiming : MidiNote :=
  { pitch := PitchValue.num 60, beat := none, startTime := none, time := none
  , duration := DurationValue.str "4", velocity := none, channel := none }

/-- Witness for C4: absent timing resolves to 0 ticks and `time = 10`
resolves to 5 ticks. -/
theorem start_offset_wait_witness :
    resolveWait noteNoTiming (some 120) = some 0 ∧
    resolveWait noteTime10 (some 120) = some 5 :=
  ⟨(start_offset_wait noteNoTiming (some 120) rfl).1 rfl rfl,
   (start_offset_wait noteTime10 (some 120) rfl).2.2.2.2 rfl rfl⟩

/-! ### C5: non-negativity of resolved wait ticks -/

/-- A note with a negative raw start offset. -/
def noteNegStart : MidiNote :=
  { pitch := PitchValue.num 60, beat := none, startTime := some (-10), time := none
  , duration := DurationValue.str "4", velocity := none, channel := none }

/-- Counterexample to C5 as stated: a note with `startTime = -10` resolves to
the negative wait of -5 ticks — the source clamps nothing
(`index.ts:404-410`), so `waitTicks` is not always non-negative. -/
theorem wait_nonneg_counterexample :
    resolveWait noteNegStart (some 120) = some (-5) ∧ ¬(0 ≤ (-5 : ℤ)) := by
  constructor <;> decide

/-- C5 (amended): the resolved wait ticks are non-negative whenever the
originally present timing input is in its documented range (beat ≥ 1,
startTime ≥ 0, time ≥ 0, tempo positive), whichever field was present;
negative timing inputs can produce negative wait ticks. -/
theorem wait_nonneg (n : MidiNote) (bpm : ℚ) (hbpm : 0 < bpm)
    (hbeat : ∀ b, n.beat = some b → 1 ≤ b)
    (hstart : ∀ s, n.startTime = some s → 0 ≤ s)
    (htime : ∀ t, n.time = some t → 0 ≤ t) :
    ∀ w, resolveWait n (some bpm) = some w → 0 ≤ w := by
  intro w hw
  rcases hbcase : n.beat with _ | b
  · rw [resolveWait_of_no_beat n _ hbcase] at hw
    have heff : 0 ≤ jsOrNum (match n.startTime with
        | some s => some s
        | none => n.time) 0 := by
      rcases hs : n.startTime with _ | s
      · rcases ht : n.time with _ | t
        · simp [jsOrNum]
        · simpa [jsOrNum_some_zero] using htime t ht
      · simpa [jsOrNum_some_zero] using hstart s hs
    obtain rfl := (Option.some.inj hw).symm
    exact jsRound_nonneg _ (mul_nonneg heff (by norm_num))
  · rw [resolveWait_of_beat n b _ hbcase] at hw
    simp only [Option.map_some'] at hw
    obtain rfl := (Option.some.inj hw).symm
    have h1 : (1 : ℚ) ≤ b := hbeat b hbcase
    exact jsRound_nonneg _
      (div_nonneg (mul_nonneg (by linarith) (by norm_num)) (le_of_lt hbpm))

/-- Witness for the amended C5: a note with only `time = 10` at tempo 120
resolves to 5 ≥ 0 wait ticks. -/
theorem wait_nonneg_witness :
    resolveWait noteTime10 (some 120) = some 5 ∧ 0 ≤ (5 : ℤ) :=
  ⟨by decide,
   wait_nonneg noteTime10 120 (by decide)
     (fun b hb => nomatch hb)
     (fun s hs => nomatch hs)
     (fun t ht => (Option.some.inj ht) ▸ (by decide : (0:ℚ) ≤ 10))
     5 (by decide)⟩

/-! ### C6: note normalization defaults -/

theorem ratTrunc_natCast_div_sixteen (ch : ℕ) :
    ratTrunc ((ch : ℚ) / 16) = ((ch / 16 : ℕ) : ℤ) := by
  rw [ratTrunc, if_pos (by positivity), ratFloor_eq_intFloor]
  have h16 : ((16 : ℚ)) = ((16 : ℕ) : ℚ) := by norm_num
  rw [h16, Rat.floor_natCast_div_natCast]
  omega

/-- The JavaScript `%` on a non-negative integer channel agrees with natural
`mod`. -/
theorem jsRem_natCast_sixteen (ch : ℕ) :
    jsRem (ch : ℚ) 16 = ((ch % 16 : ℕ) : ℚ) := by
  rw [jsRem, ratTrunc_natCast_div_sixteen]
  have key : ((ch : ℚ)) - 16 * ((ch / 16 : ℕ) : ℚ) = ((ch % 16 : ℕ) : ℚ) := by
    have hq : ((ch % 16 : ℕ) : ℚ) + 16 * ((ch / 16 : ℕ) : ℚ) = (ch : ℚ) := by
      exact_mod_cast Nat.mod_add_div ch 16
    linarith
  simpa using key

/-- C6: velocity defaults to 100 when absent; channel defaults to
`trackIndex mod 16` when absent (for track index 17 this is channel 1); a
supplied channel is wrapped with mod 16 rather than rejected. -/
theorem note_defaults (n : MidiNote) (bpm : Option ℚ) (i : ℕ) :
    (n.velocity = none → (resolveNote bpm i n).velocity = 100) ∧
    (n.channel = none → (resolveNote bpm i n).channel = ((i % 16 : ℕ) : ℚ)) ∧
    (n.channel = none → i = 17 → (resolveNote bpm i n).channel = 1) ∧
    (∀ ch : ℕ, n.channel = some ((ch : ℕ) : ℚ) →
      (resolveNote bpm i n).channel = ((ch % 16 : ℕ) : ℚ)) := by
  refine ⟨?_, ?_, ?_, ?_⟩
  · intro hv
    simp [resolveNote, hv]
  · intro hc
    simp [resolveNote, hc]
  · rintro hc rfl
    norm_num [resolveNote, hc]
  · intro ch hc
    simp [resolveNote, hc, jsRem_natCast_sixteen]

/-- A note supplying the out-of-range channel 17. -/
def noteChan17 : MidiNote :=
  { pitch := PitchValue.num 60, beat := none, startTime := none, time := none
  , duration := DurationValue.str "4", velocity := none, channel := some 17 }

/-- Witness for C6: default velocity 100; on track index 17 the default
channel is 1; the supplied channel 17 wraps to 1. -/
theorem note_defaults_witness :
    (resolveNote (some 120) 0 noteNoTiming).velocity = 100 ∧
    (resolveNote (some 120) 17 noteNoTiming).channel = 1 ∧
    (resolveNote (some 120) 0 noteChan17).channel = ((17 % 16 : ℕ) : ℚ) :=
  ⟨(note_defaults noteNoTiming (some 120) 0).1 rfl,
   (note_defaults noteNoTiming (some 120) 17).2.2.1 rfl rfl,
   (note_defaults noteChan17 (some 120) 0).2.2.2 17 (by simp [noteChan17])⟩

/-! ### C9: order preservation and chunking -/

theorem assembleTracks_getElemOpt (c : MidiComposition) :
    ∀ (ts : List MidiTrack) (i j : ℕ),
      (assembleTracks c i ts)[j]? = (ts[j]?).map (fun t => assembleTrack c (i + j) t) := by
  intro ts
  induction ts with
  | nil => intro i j; rfl
  | cons t ts ih =>
    intro i j
    cases j with
    | zero => simp [assembleTracks]
    | succ j =>
      simp only [assembleTracks, List.getElem?_cons_succ, ih (i + 1) j]
      have : i + 1 + j = i + (j + 1) := by omega
      rw [this]

theorem assembleTracks_length (c : MidiComposition) :
    ∀ (i : ℕ) (ts : List MidiTrack), (assembleTracks c i ts).length = ts.length := by
  intro i ts
  induction ts generalizing i with
  | nil => rfl
  | cons t ts ih => simp [assembleTracks, ih]

theorem noteEvents_trackMetaEvents (c : MidiComposition) (i : ℕ) (t : MidiTrack) :
    noteEvents (trackMetaEvents c i t) = [] := by
  rcases t with ⟨nm, ins, notes⟩
  rcases nm with _ | s <;> rcases ins with _ | v <;>
    simp only [trackMetaEvents] <;>
    first
      | (split_ifs <;> rfl)
      | rfl

theorem noteEvents_note_map (c : MidiComposition) (i : ℕ) (notes : List MidiNote) :
    noteEvents (notes.map (fun n => TrackEvent.note (resolveNote c.bpm i n))) =
      notes.map (resolveNote c.bpm i) := by
  induction notes with
  | nil => rfl
  | cons x xs ih =>
    simp only [noteEvents, List.map_cons, List.filterMap_cons] at ih ⊢
    rw [ih]

/-- The note events of one assembled track are exactly the per-note
resolutions of the track's notes, in declared order. -/
theorem noteEvents_assembleTrack (c : MidiComposition) (i : ℕ) (t : MidiTrack) :
    noteEvents (assembleTrack c i t) = t.notes.map (resolveNote c.bpm i) := by
  rw [assembleTrack, noteEvents, List.filterMap_append]
  have h1 := noteEvents_trackMetaEvents c i t
  have h2 := noteEvents_note_map c i t.notes
  rw [noteEvents] at h1 h2
  rw [h1, h2, List.nil_append]

theorem chunkArray_flatten {α : Type} (n : ℕ) (l : List α) :
    (chunkArray l (n + 1)).flatten = l := by
  have main : ∀ (k : ℕ) (l : List α), l.length ≤ k → (chunkArray l (n + 1)).flatten = l := by
    intro k
    induction k with
    | zero =>
      intro l hl
      rw [List.length_eq_zero.mp (Nat.le_zero.mp hl)]
      simp [chunkArray]
    | succ k ih =>
      intro l hl
      match l with
      | [] => simp [chunkArray]
      | a :: l =>
        rw [chunkArray, List.flatten_cons,
          ih ((a :: l).drop (n + 1)) (by simp [List.length_drop] at hl ⊢; omega)]
        exact List.take_append_drop (n + 1) (a :: l)
  exact main l.length l le_rfl

theorem normalizeComposition_bpm (c : MidiComposition) :
    (normalizeComposition c).bpm = c.bpm := rfl

/-- C9: the output event stream preserves track order and, within each track,
note order exactly as declared (the i-th output track carries the per-note
resolutions of the i-th input track's notes, in order, one note event per
input note), and the chunking threshold cannot change event order or count:
the 50-note chunks of any track flatten back to exactly the original note
list (the chunked processing path of `processMidiComposition` feeds no events
to the writer at all — `processNoteChunk` and `processTrack` are no-ops). -/
theorem track_and_note_order_preserved (c : MidiComposition) (i : ℕ) :
    (buildMidi c).length = c.tracks.length ∧
    ((buildMidi c)[i]?).map noteEvents =
      (c.tracks[i]?).map (fun t => t.notes.map (fun n => resolveNote c.bpm i (normalizeNote n))) ∧
    ((buildMidi c)[i]?).map (fun es => (noteEvents es).length) =
      (c.tracks[i]?).map (fun t => t.notes.length) ∧
    (c.tracks[i]?).map (fun t => (chunkArray t.notes batchSize).flatten) =
      (c.tracks[i]?).map (fun t => t.notes) := by
  have hlen : (buildMidi c).length = c.tracks.length := by
    rw [buildMidi, createMidiEvents, assembleTracks_length]
    simp [normalizeComposition]
  have hget : (buildMidi c)[i]? =
      ((c.tracks[i]?).map (fun t =>
        assembleTrack (normalizeComposition c) i
          { t with notes := t.notes.map normalizeNote })) := by
    rw [buildMidi, createMidiEvents, assembleTracks_getElemOpt]
    simp only [normalizeComposition, List.getElem?_map, Option.map_map, Nat.zero_add]
    rcases c.tracks[i]? with _ | t2 <;> rfl
  refine ⟨hlen, ?_, ?_, ?_⟩
  · rw [hget]
    rcases c.tracks[i]? with _ | t
    · rfl
    · simp [noteEvents_assembleTrack, normalizeComposition_bpm]
  · rw [hget]
    rcases c.tracks[i]? with _ | t
    · rfl
    · simp [noteEvents_assembleTrack]
  · rcases c.tracks[i]? with _ | t
    · rfl
    · simp only [Option.map_some']
      rw [show batchSize = 49 + 1 from rfl, chunkArray_flatten]

/-! ### C10: tempo selection -/

/-- C10: each assembled track carries a tempo-set event whose value is
`composition.bpm` when present and non-zero, otherwise the legacy `tempo`
field when present and non-zero, otherwise the hard-coded default 120
(`index.ts:380-381`, JavaScript `composition.bpm || composition.tempo ||
120`). -/
theorem tempo_selection (c : MidiComposition) (i : ℕ) (t : MidiTrack) :
    TrackEvent.setTempo (effectiveTempo c) ∈ assembleTrack c i t ∧
    (∀ b, c.bpm = some b → b ≠ 0 → effectiveTempo c = b) ∧
    ((c.bpm = none ∨ c.bpm = some 0) →
      ∀ tp, c.tempo = some tp → tp ≠ 0 → effectiveTempo c = tp) ∧
    ((c.bpm = none ∨ c.bpm = some 0) → (c.tempo = none ∨ c.tempo = some 0) →
      effectiveTempo c = 120) := by
  refine ⟨?_, ?_, ?_, ?_⟩
  · simp [assembleTrack, trackMetaEvents]
  · intro b hb hb0
    simp [effectiveTempo, jsOrNum, hb, hb0]
  · rintro (hb | hb) tp ht ht0 <;> simp [effectiveTempo, jsOrNum, hb, ht, ht0]
  · rintro (hb | hb) (ht | ht) <;> simp [effectiveTempo, jsOrNum, hb, ht]

def trackEmpty : MidiTrack := { name := none, instrument := none, notes := [] }

def compBpm100 : MidiComposition :=
  { bpm := some 100, tempo := some 90, timeSignature := none, tracks := [] }

def compTempo90 : MidiComposition :=
  { bpm := none, tempo := some 90, timeSignature := none, tracks := [] }

def compNoTempo : MidiComposition :=
  { bpm := some 0, tempo := none, timeSignature := none, tracks := [] }

/-- Witness for C10 at three concrete compositions, one per fallback level. -/
theorem tempo_selection_witness :
    effectiveTempo compBpm100 = 100 ∧
    effectiveTempo compTempo90 = 90 ∧
    effectiveTempo compNoTempo = 120 :=
  ⟨(tempo_selection compBpm100 0 trackEmpty).2.1 100 rfl (by decide),
   (tempo_selection compTempo90 0 trackEmpty).2.2.1 (Or.inl rfl) 90 rfl (by decide),
   (tempo_selection compNoTempo 0 trackEmpty).2.2.2 (Or.inr rfl) (Or.inl rfl)⟩

/-! ### C8: neither composition source supplied -/

/-- C8: a request supplying neither `composition` nor `composition_file` is
rejected with the InvalidParams error of `index.ts:181-186`; the error is
raised before `createMidiFile` runs, so the result carries no assembled
events and no output file is written. -/
theorem missing_composition_rejected (readFile : String → Option String)
    (parseJson : String → Option MidiComposition) (args : CreateMidiArgs)
    (h1 : args.composition = none) (h2 : args.composition_file = none) :
    handleCreateMidi readFile parseJson args =
      Except.error HandlerError.missingComposition := by
  rw [handleCreateMidi, if_pos]
  exact ⟨by rw [h1]; rfl, by rw [h2]; rfl⟩

def argsNeither : CreateMidiArgs :=
  { title := "t", composition := none, composition_file := none
  , output_path := "out.mid" }

/-- Witness for C8 at a concrete request. -/
theorem missing_composition_rejected_witness :
    handleCreateMidi (fun _ => none) (fun _ => none) argsNeither =
      Except.error HandlerError.missingComposition :=
  missing_composition_rejected (fun _ => none) (fun _ => none) argsNeither rfl rfl

/-! ### C7: both composition sources supplied -/

def compSimple : MidiComposition :=
  { bpm := some 120, tempo := none, timeSignature := none, tracks := [] }

/-- A request supplying both sources, with an inline composition object and an
empty-string `composition_file`. -/
def argsInlineAndEmptyFile : CreateMidiArgs :=
  { title := "t", composition := some (CompInput.objVal compSimple)
  , composition_file := some "", output_path := "out.mid" }

/-- A request supplying both sources as empty strings. -/
def argsBothEmpty : CreateMidiArgs :=
  { title := "t", composition := some (CompInput.strVal "")
  , composition_file := some "", output_path := "out.mid" }

/-- Counterexample to C7 as stated: `if (args.composition_file)` at
`index.ts:190` is a JavaScript truthiness test, so a supplied but empty
`composition_file` is not used.  With both arguments supplied, the handler
(a) builds from the inline composition (and behaves differently from the same
request without it) when `composition_file` is the empty string, and
(b) rejects the request as InvalidParams when both are supplied as empty
strings. -/
theorem both_sources_counterexample :
    handleCreateMidi (fun _ => none) (fun _ => none) argsInlineAndEmptyFile =
      Except.ok (buildMidi compSimple) ∧
    handleCreateMidi (fun _ => none) (fun _ => none) argsInlineAndEmptyFile ≠
      handleCreateMidi (fun _ => none) (fun _ => none)
        { argsInlineAndEmptyFile with composition := none } ∧
    handleCreateMidi (fun _ => none) (fun _ => none) argsBothEmpty =
      Except.error HandlerError.missingComposition := by
  refine ⟨rfl, ?_, rfl⟩
  have hL : handleCreateMidi (fun _ => none) (fun _ => none) argsInlineAndEmptyFile =
      Except.ok (buildMidi compSimple) := rfl
  have hR : handleCreateMidi (fun _ => none) (fun _ => none)
      { argsInlineAndEmptyFile with composition := none } =
      Except.error HandlerError.missingComposition := rfl
  rw [hL, hR]
  intro h
  exact Except.noConfusion h

/-- C7 (amended): for every request supplying both `composition` and a
non-empty `composition_file`, the request passes the presence check (it is
not rejected with the missing-composition InvalidParams) and the composition
is loaded from `composition_file`, the inline composition being ignored: the
outcome is identical to the same request without the inline composition, and
equals the result of reading and parsing the file. -/
theorem both_sources_file_precedence (readFile : String → Option String)
    (parseJson : String → Option MidiComposition) (args : CreateMidiArgs)
    (ci : CompInput) (fp : String)
    (_h1 : args.composition = some ci) (h2 : args.composition_file = some fp)
    (h3 : fp ≠ "") :
    handleCreateMidi readFile parseJson args =
      handleCreateMidi readFile parseJson { args with composition := none } ∧
    handleCreateMidi readFile parseJson args ≠
      Except.error HandlerError.missingComposition ∧
    handleCreateMidi readFile parseJson args =
      (match readFile fp with
       | none => Except.error HandlerError.fileLoadFailed
       | some content =>
         match parseJson content with
         | none => Except.error HandlerError.fileLoadFailed
         | some c => Except.ok (buildMidi c)) := by
  have htf : truthyStr args.composition_file = true := by
    simp [truthyStr, h2, h3]
  have hexp : ∀ (comp : Option CompInput),
      handleCreateMidi readFile parseJson
        { title := args.title, composition := comp
        , composition_file := args.composition_file
        , output_path := args.output_path } =
      (match readFile fp with
       | none => Except.error HandlerError.fileLoadFailed
       | some content =>
         match parseJson content with
         | none => Except.error HandlerError.fileLoadFailed
         | some c => Except.ok (buildMidi c)) := by
    intro comp
    have htf2 : truthyStr (some fp) = true := by simp [truthyStr, h3]
    rw [handleCreateMidi, if_neg (by simp [h2, htf2])]
    simp only [h2]
    rw [if_pos htf2]
    rcases hrf : readFile fp with _ | content
    · simp [hrf]
    · rcases hpj : parseJson content with _ | c <;> simp [hrf, hpj]
  have hargs : args =
      { title := args.title, composition := args.composition
      , composition_file := args.composition_file
      , output_path := args.output_path } := rfl
  refine ⟨?_, ?_, ?_⟩
  · rw [hargs, hexp args.composition, hexp none]
  · rw [hargs, hexp args.composition]
    rcases hrf : readFile fp with _ | content
    · simp [hrf]
    · rcases hpj : parseJson content with _ | c <;> simp [hrf, hpj]
  · rw [hargs, hexp args.composition]

def readFileStub : String → Option String := fun _ => some "filedata"

def parseJsonStub : String → Option MidiComposition := fun _ => some compSimple

/-- A request supplying both an inline composition and a non-empty
`composition_file`. -/
def argsBothPresent : CreateMidiArgs :=
  { title := "t", composition := some (CompInput.objVal compTempo90)
  , composition_file := some "f.json", output_path := "out.mid" }

/-- Witness for the amended C7: with both supplied and a non-empty file path,
the handler builds from the (stub-read) file content, not from the inline
composition. -/
theorem both_sources_file_precedence_witness :
    handleCreateMidi readFileStub parseJsonStub argsBothPresent =
      Except.ok (buildMidi compSimple) :=
  ((both_sources_file_precedence readFileStub parseJsonStub argsBothPresent
      (CompInput.objVal compTempo90) "f.json" rfl rfl (by decide)).2.2).trans rfl
